import Mathlib

/-!
Verification of the clipboard-concierge core (intent classification,
content-signature mining, behavior tracking, dedup gate) against its
natural-language specification.

The Python source is shallowly embedded: strings are Lean `String`s
(`String.data : List Char` mirrors Python's sequence of code points),
scores are rationals (the source's decimal float literals and sums are
modelled exactly as rationals), dictionaries are insertion-ordered
association lists, and each `re.search`/`re.findall` call is embedded as
an executable scanner over `List Char` implementing that particular
pattern's matching semantics.  The one fallible spot in the classifier
(`content.split()[0]`, an `IndexError` on token-less input) is modelled
with `Option`.
-/

namespace Concierge

/-! ## Character classes (Python `re`, ASCII range) -/

/-- Python regex `\w` / `str` word characters (ASCII): letters, digits, `_`. -/
def isWordChar (c : Char) : Bool :=
  c.isAlpha || c.isDigit || c = '_'

/-- Python `str.split()` / regex `\s` whitespace set (ASCII). -/
def pyIsSpace (c : Char) : Bool :=
  c = ' ' || c = '\t' || c = '\n' || c = '\r' || c = '\x0b' || c = '\x0c'

/-- A single-quote character (`'`), used in several source string literals. -/
def sq : Char := Char.ofNat 39

/-- Python `str.lower()` on ASCII content. -/
def pyLower (s : String) : String :=
  String.mk (s.data.map Char.toLower)

/-- Python `content[:n]` (prefix of at most `n` code points). -/
def pyTake (n : Nat) (s : String) : String :=
  String.mk (s.data.take n)

/-- `len(s.strip()) == 0`: true iff every character is whitespace
(so also true for the empty string, covering `not content`). -/
def pyStripEmpty (s : String) : Bool :=
  s.data.all pyIsSpace

/-- Python `str.strip()`: drop leading and trailing whitespace. -/
def pyStrip (s : String) : String :=
  String.mk (((s.data.dropWhile pyIsSpace).reverse.dropWhile pyIsSpace).reverse)

/-! ## Python `str.split()` tokenization -/

/-- Accumulator-based splitter: splits on runs of whitespace and drops
empty pieces, exactly like argument-less Python `str.split()`.
`acc` holds the current (reversed) in-progress token. -/
def tokensAux : List Char → List Char → List (List Char)
  | [], acc => if acc.isEmpty then [] else [acc.reverse]
  | c :: cs, acc =>
    if pyIsSpace c then
      if acc.isEmpty then tokensAux cs [] else acc.reverse :: tokensAux cs []
    else
      tokensAux cs (c :: acc)

/-- Python `content.split()` (whitespace tokenization, no empty tokens). -/
def pyTokens (s : String) : List String :=
  (tokensAux s.data []).map String.mk

/-! ## Generic scanning primitives for the embedded regex searches -/

/-- The character at index `i`, if in range. -/
def charAt (cs : List Char) (i : Nat) : Option Char :=
  cs.get? i

/-- Is the character at index `i` a word character (out of range counts
as a non-word position, as at the ends of a Python regex subject)? -/
def wordAt (cs : List Char) (i : Nat) : Bool :=
  match charAt cs i with
  | some c => isWordChar c
  | none => false

/-- Regex `\b` at offset `i`: exactly one of the two surrounding
positions is a word character. -/
def boundaryAt (cs : List Char) (i : Nat) : Bool :=
  (if i = 0 then false else wordAt cs (i - 1)) != wordAt cs i

/-- Literal `pat` occurs at offset `i`. -/
def matchesAt (cs pat : List Char) (i : Nat) : Bool :=
  pat.isPrefixOf (cs.drop i)

/-- Literal `pat` occurs at offset `i`, case-insensitively
(for the source's `re.IGNORECASE` searches; `pat` given lower-case). -/
def matchesAtCI (cs pat : List Char) (i : Nat) : Bool :=
  pat.isPrefixOf ((cs.drop i).take pat.length |>.map Char.toLower)

/-- Plain substring search — the semantics of `re.search` on a pattern
that is just a literal. -/
def containsSub (cs pat : List Char) : Bool :=
  (List.range (cs.length + 1)).any fun i => matchesAt cs pat i

/-- Search for `\bL\b` where `L` ranges over a list of literal
alternatives: some alternative occurs at some offset with a word
boundary on both sides.  This is the match-success condition of the
source patterns of the shape `\b(w1|w2|...)\b`. -/
def bWordSearch (alts : List (List Char)) (cs : List Char) : Bool :=
  (List.range (cs.length + 1)).any fun i =>
    alts.any fun l =>
      matchesAt cs l i && boundaryAt cs i && boundaryAt cs (i + l.length)

/-- Length of the maximal run of characters satisfying `p` at offset `i`. -/
def runLen (p : Char → Bool) (cs : List Char) (i : Nat) : Nat :=
  ((cs.drop i).takeWhile p).length

/-- Exactly `n` characters satisfying `p` occur at offset `i` (there may
be more after them). -/
def runAtLeast (p : Char → Bool) (cs : List Char) (i n : Nat) : Bool :=
  ((cs.drop i).take n).all p && ((cs.drop i).take n).length = n

/-! Nondeterministic matching combinators: a component maps a start
offset to the list of offsets it can end at, so a sequential regex is a
`flatMap` chain and match success is existence of a successful chain —
exactly the success condition of a backtracking engine. -/

/-- Literal component. -/
def litP (pat : List Char) (cs : List Char) (i : Nat) : List Nat :=
  if matchesAt cs pat i then [i + pat.length] else []

/-- Optional single character (`c?`). -/
def optCharP (c : Char) (cs : List Char) (i : Nat) : List Nat :=
  i :: (if charAt cs i = some c then [i + 1] else [])

/-- Optional single character from a class (`[..]?`). -/
def optClassP (p : Char → Bool) (cs : List Char) (i : Nat) : List Nat :=
  i :: (match charAt cs i with
        | some c => if p c then [i + 1] else []
        | none => [])

/-- `p{lo,hi}` for a character class: each feasible repetition count. -/
def classRangeP (p : Char → Bool) (lo hi : Nat) (cs : List Char) (i : Nat) : List Nat :=
  (List.range (hi + 1)).filterMap fun n =>
    if lo ≤ n && runAtLeast p cs i n then some (i + n) else none

/-- `p+` for a character class: every nonempty prefix of the maximal run. -/
def classPlusP (p : Char → Bool) (cs : List Char) (i : Nat) : List Nat :=
  (List.range (runLen p cs i + 1)).filterMap fun n =>
    if 1 ≤ n then some (i + n) else none

/-- `p*` for a character class. -/
def classStarP (p : Char → Bool) (cs : List Char) (i : Nat) : List Nat :=
  (List.range (runLen p cs i + 1)).map fun n => i + n

/-- Sequential composition of two components. -/
def seqP (f g : List Char → Nat → List Nat) (cs : List Char) (i : Nat) : List Nat :=
  (f cs i).flatMap (g cs)

/-- `(body)*`: zero or more repetitions; `fuel` bounds the recursion
(each accepted repetition must consume at least one character, which is
true of every starred group in the source patterns). -/
def starP (f : List Char → Nat → List Nat) (fuel : Nat) (cs : List Char) (i : Nat) :
    List Nat :=
  i :: match fuel with
       | 0 => []
       | fuel' + 1 =>
         ((f cs i).filter (fun j => i < j)).flatMap (starP f fuel' cs)

/-- Alternation of two components. -/
def altP (f g : List Char → Nat → List Nat) (cs : List Char) (i : Nat) : List Nat :=
  f cs i ++ g cs i

/-- Optional group. -/
def optGroupP (f : List Char → Nat → List Nat) (cs : List Char) (i : Nat) : List Nat :=
  i :: f cs i

/-- Match success of a component anchored at offset `i`. -/
def matchSomeAt (f : List Char → Nat → List Nat) (cs : List Char) (i : Nat) : Bool :=
  !(f cs i).isEmpty

/-- Unanchored search (`re.search`) for a component. -/
def searchP (f : List Char → Nat → List Nat) (cs : List Char) : Bool :=
  (List.range (cs.length + 1)).any fun i => matchSomeAt f cs i

/-- Case-insensitive literal component. -/
def litCIP (pat : List Char) (cs : List Char) (i : Nat) : List Nat :=
  if matchesAtCI cs pat i then [i + pat.length] else []

/-- Alternation over a list of literals (in the pattern's source order). -/
def litAltP (alts : List (List Char)) (cs : List Char) (i : Nat) : List Nat :=
  alts.flatMap fun l => litP l cs i

/-- `p{lo,hi}` in greedy preference order (longest first). -/
def classRangeGP (p : Char → Bool) (lo hi : Nat) (cs : List Char) (i : Nat) : List Nat :=
  ((List.range (hi + 1)).reverse).filterMap fun n =>
    if lo ≤ n && runAtLeast p cs i n then some (i + n) else none

/-- `p+` in greedy preference order. -/
def classPlusGP (p : Char → Bool) (cs : List Char) (i : Nat) : List Nat :=
  ((List.range (runLen p cs i + 1)).reverse).filterMap fun n =>
    if 1 ≤ n then some (i + n) else none

/-- `p*` in greedy preference order. -/
def classStarGP (p : Char → Bool) (cs : List Char) (i : Nat) : List Nat :=
  ((List.range (runLen p cs i + 1)).reverse).map fun n => i + n

/-- Greedy `c?`: prefer consuming the character. -/
def optCharGP (c : Char) (cs : List Char) (i : Nat) : List Nat :=
  (if charAt cs i = some c then [i + 1] else []) ++ [i]

/-- Greedy `[..]?`. -/
def optClassGP (p : Char → Bool) (cs : List Char) (i : Nat) : List Nat :=
  (match charAt cs i with
   | some c => if p c then [i + 1] else []
   | none => []) ++ [i]

/-- Greedy `(group)?`: prefer entering the group. -/
def optGroupGP (f : List Char → Nat → List Nat) (cs : List Char) (i : Nat) : List Nat :=
  f cs i ++ [i]

/-- Greedy `(body)*`: prefer more repetitions; each repetition must
consume at least one character (true of every starred group below). -/
def starGP (f : List Char → Nat → List Nat) (fuel : Nat) (cs : List Char) (i : Nat) :
    List Nat :=
  (match fuel with
   | 0 => []
   | fuel' + 1 =>
     ((f cs i).filter (fun j => i < j)).flatMap (starGP f fuel' cs)) ++ [i]

/-- Search for a pattern of the shape `\b(...)\b` given the component of
its body: some start offset has a word boundary, and some reachable end
offset has a word boundary. -/
def searchBddP (f : List Char → Nat → List Nat) (cs : List Char) : Bool :=
  (List.range (cs.length + 1)).any fun i =>
    boundaryAt cs i && (f cs i).any fun e => boundaryAt cs e

/-! ## The individual `re.search` calls of the source, as scanners -/

/-- `re.search(r'\.py\b', content)`: `.py` at some offset with a word
boundary after the `y`. -/
def dotPySearch (cs : List Char) : Bool :=
  (List.range (cs.length + 1)).any fun i =>
    matchesAt cs ['.', 'p', 'y'] i && boundaryAt cs (i + 3)

/-- `re.search(r'\.json\b', content)`. -/
def dotJsonSearch (cs : List Char) : Bool :=
  (List.range (cs.length + 1)).any fun i =>
    matchesAt cs ".json".data i && boundaryAt cs (i + 5)

/-- `re.search(r'python\s+\w+\.py', content_lower)`. -/
def pythonCmdSearch (cs : List Char) : Bool :=
  searchP (seqP (litP "python".data)
    (seqP (classPlusGP pyIsSpace)
      (seqP (classPlusGP isWordChar) (litP ".py".data)))) cs

/-- `re.search(r'(error|exception|traceback)', content_lower)`: a plain
substring alternation (no word boundaries in this pattern). -/
def errAltSearch (cs : List Char) : Bool :=
  containsSub cs "error".data || containsSub cs "exception".data ||
    containsSub cs "traceback".data

/-- `re.search(r'[A-Z]:\\', content)`: an upper-case drive letter
followed by `:\`. -/
def winDriveSearch (cs : List Char) : Bool :=
  (List.range (cs.length + 1)).any fun i =>
    (match charAt cs i with
     | some c => c.isUpper
     | none => false) && matchesAt cs [':', '\\'] (i + 1)

/-- `re.search(r'https?://', content)`: the literal `http://` or
`https://` occurs. -/
def httpSearch (cs : List Char) : Bool :=
  containsSub cs "http://".data || containsSub cs "https://".data

/-! ## `PersonalizedConcierge._create_signature` -/

/-- `PersonalizedConcierge._create_signature`: collapse clipboard
content to a coarse label.  Mirrors the source's rule order exactly:
`.py` (code vs. filename) → `python <file>.py` command → `.json` →
`pip install` → error/exception/traceback → Windows drive path →
URL → fallback `"_".join(content.split()[:3])` (note: the source does
*not* lower-case the fallback tokens), with `"empty"` for the empty
string (`if not content`). -/
def createSignature (content : String) : String :=
  if content.isEmpty then "empty"
  else
    let contentLower := pyLower content
    if dotPySearch content.data then
      if containsSub contentLower.data "import".data ||
          containsSub contentLower.data "def ".data then "python_code"
      else "python_filename"
    else if pythonCmdSearch contentLower.data then "python_command"
    else if dotJsonSearch content.data then "json_file"
    else if containsSub contentLower.data "pip install".data then "pip_install"
    else if errAltSearch contentLower.data then "error_message"
    else if winDriveSearch content.data then "file_path"
    else if httpSearch content.data then "url"
    else String.intercalate "_" ((pyTokens content).take 3)

/-! ## Classifier sub-signal scanners (`IntentClassifier.__init__` patterns) -/

/-- `calendar_patterns['meeting']`:
`\b(meet|meeting|call|zoom|teams| skype|interview|appointment)\b`
(searched on the lower-cased content).  Note the alternative `" skype"`
keeps its leading space exactly as in the source pattern. -/
def meetingSearch (cs : List Char) : Bool :=
  bWordSearch ["meet".data, "meeting".data, "call".data, "zoom".data,
    "teams".data, " skype".data, "interview".data, "appointment".data] cs

/-- `(?:AM|PM|am|pm)` under `re.IGNORECASE`: one of `a/A/p/P` then `m/M`. -/
def ampmP (cs : List Char) (i : Nat) : List Nat :=
  match charAt cs i, charAt cs (i + 1) with
  | some c, some d =>
    if (c.toLower = 'a' || c.toLower = 'p') && d.toLower = 'm' then [i + 2] else []
  | _, _ => []

/-- `calendar_patterns['time']`:
`\b(\d{1,2}:\d{2}\s*(?:AM|PM|am|pm)|\d{1,2}\s*(?:AM|PM|am|pm))\b`,
searched on the original content with `re.IGNORECASE`. -/
def timeSearch (cs : List Char) : Bool :=
  searchBddP (altP
    (seqP (classRangeGP Char.isDigit 1 2)
      (seqP (litP [':'])
        (seqP (classRangeGP Char.isDigit 2 2)
          (seqP (classStarGP pyIsSpace) ampmP))))
    (seqP (classRangeGP Char.isDigit 1 2)
      (seqP (classStarGP pyIsSpace) ampmP))) cs

/-- `calendar_patterns['date_relative']`:
`\b(today|tomorrow|monday|...|sunday)\b` on the lower-cased content. -/
def dateRelSearch (cs : List Char) : Bool :=
  bWordSearch ["today".data, "tomorrow".data, "monday".data, "tuesday".data,
    "wednesday".data, "thursday".data, "friday".data, "saturday".data,
    "sunday".data] cs

/-- ASCII `[a-z]` (the subject is already lower-cased where this is used). -/
def isLowerAlpha (c : Char) : Bool :=
  'a' ≤ c && c ≤ 'z'

/-- `calendar_patterns['date_absolute']` on the lower-cased content:
first alternative 1-2 digits, a slash-or-dash separator, 1-2 digits,
a separator, 2-4 digits; second alternative a month prefix
(`jan|feb|...|dec`) then `[a-z]*\s*\d{1,2}`; both inside `\b(...)\b`. -/
def dateAbsSearch (cs : List Char) : Bool :=
  searchBddP (altP
    (seqP (classRangeGP Char.isDigit 1 2)
      (seqP (classRangeGP (fun c => c = '/' || c = '-') 1 1)
        (seqP (classRangeGP Char.isDigit 1 2)
          (seqP (classRangeGP (fun c => c = '/' || c = '-') 1 1)
            (classRangeGP Char.isDigit 2 4)))))
    (seqP (litAltP ["jan".data, "feb".data, "mar".data, "apr".data, "may".data,
        "jun".data, "jul".data, "aug".data, "sep".data, "oct".data, "nov".data,
        "dec".data])
      (seqP (classStarGP isLowerAlpha)
        (seqP (classStarGP pyIsSpace) (classRangeGP Char.isDigit 1 2))))) cs

/-- `calendar_patterns['duration']`:
`\b(\d+\s*(?:min|hour|hr|minutes|hours))\b` on the lower-cased content. -/
def durationSearch (cs : List Char) : Bool :=
  searchBddP (seqP (classPlusGP Char.isDigit)
    (seqP (classStarGP pyIsSpace)
      (litAltP ["min".data, "hour".data, "hr".data, "minutes".data,
        "hours".data]))) cs

/-- `reminder_patterns['todo_keywords']`:
`\b(todo|task|reminder|remember|don't forget|make sure|need to)\b`
on the lower-cased content. -/
def todoSearch (cs : List Char) : Bool :=
  bWordSearch ["todo".data, "task".data, "reminder".data, "remember".data,
    ("don".data ++ [sq] ++ "t forget".data), "make sure".data,
    "need to".data] cs

/-- `reminder_patterns['priority']`:
`\b(urgent|important|asap|priority|critical)\b` on lower-cased content. -/
def prioritySearch (cs : List Char) : Bool :=
  bWordSearch ["urgent".data, "important".data, "asap".data, "priority".data,
    "critical".data] cs

/-- `error_patterns['error_keywords']`:
`\b(error|exception|failed|failure|bug|issue|problem|crash)\b`
on the lower-cased content. -/
def errKwSearch (cs : List Char) : Bool :=
  bWordSearch ["error".data, "exception".data, "failed".data, "failure".data,
    "bug".data, "issue".data, "problem".data, "crash".data] cs

/-- Regex `[\w.]`. -/
def isWordDot (c : Char) : Bool :=
  isWordChar c || c = '.'

/-- `error_patterns['stack_trace']`:
`\b(at\s+[\w.]+\(|traceback|file\s+"|line\s+\d+)\b`, searched on the
original content with `re.IGNORECASE`. -/
def stackTraceSearch (cs : List Char) : Bool :=
  searchBddP (altP
    (seqP (litCIP "at".data)
      (seqP (classPlusGP pyIsSpace)
        (seqP (classPlusGP isWordDot) (litP ['(']))))
    (altP (litCIP "traceback".data)
      (altP (seqP (litCIP "file".data)
          (seqP (classPlusGP pyIsSpace) (litP ['"'])))
        (seqP (litCIP "line".data)
          (seqP (classPlusGP pyIsSpace) (classPlusGP Char.isDigit)))))) cs

/-- `error_patterns['languages']`:
`\b(python|javascript|java|cpp|c\+\+|typescript|go|rust|sql)\b`
on the lower-cased content. -/
def langSearch (cs : List Char) : Bool :=
  bWordSearch ["python".data, "javascript".data, "java".data, "cpp".data,
    "c++".data, "typescript".data, "go".data, "rust".data, "sql".data] cs

/-- `search_patterns['question']`:
`\b(?:how|what|when|where|who|why|which|can you|is there|are there)\b`
on the lower-cased content. -/
def questionSearch (cs : List Char) : Bool :=
  bWordSearch ["how".data, "what".data, "when".data, "where".data, "who".data,
    "why".data, "which".data, "can you".data, "is there".data,
    "are there".data] cs

/-- `search_patterns['definition']`:
`\b(?:define|meaning of|what is|what are)\b` on lower-cased content. -/
def definitionSearch (cs : List Char) : Bool :=
  bWordSearch ["define".data, "meaning of".data, "what is".data,
    "what are".data] cs

/-- `content.strip().endswith('?')`. -/
def endsWithQuestionMark (content : String) : Bool :=
  (pyStrip content).data.getLast? = some '?'

/-! ### Contact patterns -/

/-- Regex `[\w.+-]` (local part of the email pattern). -/
def emailCharA (c : Char) : Bool :=
  isWordChar c || c = '.' || c = '+' || c = '-'

/-- Regex `[\w.-]` (domain part of the email pattern). -/
def emailCharB (c : Char) : Bool :=
  isWordChar c || c = '.' || c = '-'

/-- ASCII `[a-zA-Z]`. -/
def isAsciiAlpha (c : Char) : Bool :=
  c.isUpper || c.isLower

/-- Body of `contact_patterns['email']`:
`[\w.+-]+@[\w.-]+\.[a-zA-Z]{2,}` (the surrounding `\b`s are handled by
the search wrapper).  `{2,}` is bounded by the subject length. -/
def emailBodyP (cs : List Char) (i : Nat) : List Nat :=
  seqP (classPlusGP emailCharA)
    (seqP (litP ['@'])
      (seqP (classPlusGP emailCharB)
        (seqP (litP ['.'])
          (classRangeGP isAsciiAlpha 2 cs.length)))) cs i

/-- `re.search(contact_patterns['email'], content)` succeeds. -/
def emailSearch (cs : List Char) : Bool :=
  searchBddP emailBodyP cs

/-- `match.group(0)` of the email search: the leftmost start offset at
which the pattern matches, with the end offset chosen in the engine's
greedy backtracking preference order (the component lists ends in that
order, so the first end with a trailing word boundary is the match
end). -/
def emailExtract (cs : List Char) : Option (List Char) :=
  ((List.range (cs.length + 1)).find? fun i =>
      boundaryAt cs i && (emailBodyP cs i).any fun e => boundaryAt cs e).bind
    fun i =>
      ((emailBodyP cs i).find? fun e => boundaryAt cs e).map fun e =>
        (cs.drop i).take (e - i)

/-- Regex `[-.\s]` (phone separators). -/
def phoneSep (c : Char) : Bool :=
  c = '-' || c = '.' || pyIsSpace c

/-- Body of `contact_patterns['phone']`:
`(?:\+?\d{1,3}[-.\s]?)?\(?\d{3}\)?[-.\s]?\d{3}[-.\s]?\d{4}`
(the surrounding `\b`s are handled by the search wrapper). -/
def phoneBodyP (cs : List Char) (i : Nat) : List Nat :=
  seqP (optGroupGP (seqP (optCharGP '+')
      (seqP (classRangeGP Char.isDigit 1 3) (optClassGP phoneSep))))
    (seqP (optCharGP '(')
      (seqP (classRangeGP Char.isDigit 3 3)
        (seqP (optCharGP ')')
          (seqP (optClassGP phoneSep)
            (seqP (classRangeGP Char.isDigit 3 3)
              (seqP (optClassGP phoneSep)
                (classRangeGP Char.isDigit 4 4))))))) cs i

/-- `re.search(contact_patterns['phone'], content)` succeeds. -/
def phoneSearch (cs : List Char) : Bool :=
  searchBddP phoneBodyP cs

/-- `match.group(0)` of the phone search (leftmost start, greedy end). -/
def phoneExtract (cs : List Char) : Option (List Char) :=
  ((List.range (cs.length + 1)).find? fun i =>
      boundaryAt cs i && (phoneBodyP cs i).any fun e => boundaryAt cs e).bind
    fun i =>
      ((phoneBodyP cs i).find? fun e => boundaryAt cs e).map fun e =>
        (cs.drop i).take (e - i)

/-! ### File-path patterns -/

/-- Regex `[^\\/:*?"<>|]` (Windows path segment characters). -/
def winSegChar (c : Char) : Bool :=
  !(c = '\\' || c = '/' || c = ':' || c = '*' || c = '?' || c = '"' ||
    c = '<' || c = '>' || c = '|')

/-- Body of `file_patterns['windows_path']`:
`[A-Z]:\\(?:[^\\/:*?"<>|]+\\)*[^\\/:*?"<>|]*`. -/
def winPathBodyP (cs : List Char) (i : Nat) : List Nat :=
  seqP (classRangeGP Char.isUpper 1 1)
    (seqP (litP [':', '\\'])
      (seqP (starGP (seqP (classPlusGP winSegChar) (litP ['\\'])) cs.length)
        (classStarGP winSegChar))) cs i

/-- `re.search(file_patterns['windows_path'], content)` succeeds.
This pattern has no `\b` anchors. -/
def winPathSearch (cs : List Char) : Bool :=
  searchP winPathBodyP cs

/-- `match.group(0)` of the Windows-path search (leftmost, greedy). -/
def winPathExtract (cs : List Char) : Option (List Char) :=
  ((List.range (cs.length + 1)).find? fun i => matchSomeAt winPathBodyP cs i).bind
    fun i => ((winPathBodyP cs i).head?).map fun e => (cs.drop i).take (e - i)

/-- Regex `[^/\0]`. -/
def notSlashNul (c : Char) : Bool :=
  !(c = '/' || c = Char.ofNat 0)

/-- Body of `file_patterns['unix_path']`: `/(?:[^/\0]+/)*[^/\0]*`. -/
def unixPathBodyP (cs : List Char) (i : Nat) : List Nat :=
  seqP (litP ['/'])
    (seqP (starGP (seqP (classPlusGP notSlashNul) (litP ['/'])) cs.length)
      (classStarGP notSlashNul)) cs i

/-- `re.search(file_patterns['unix_path'], content)` succeeds.
This pattern has no `\b` anchors; it matches at any `/`. -/
def unixPathSearch (cs : List Char) : Bool :=
  searchP unixPathBodyP cs

/-- `match.group(0)` of the unix-path search (leftmost, greedy). -/
def unixPathExtract (cs : List Char) : Option (List Char) :=
  ((List.range (cs.length + 1)).find? fun i => matchSomeAt unixPathBodyP cs i).bind
    fun i => ((unixPathBodyP cs i).head?).map fun e => (cs.drop i).take (e - i)

/-! ### Field-extraction regexes used once a category qualifies -/

/-- Generic `match.group(0)` for a pattern without `\b` anchors:
leftmost start offset, end offset first in greedy preference order. -/
def extractP (f : List Char → Nat → List Nat) (cs : List Char) : Option (List Char) :=
  ((List.range (cs.length + 1)).find? fun i => matchSomeAt f cs i).bind
    fun i => ((f cs i).head?).map fun e => (cs.drop i).take (e - i)

/-- Body of `r'(\d{1,2}:\d{2}\s*(?:AM|PM|am|pm))'` (whole pattern is the
group, searched with `re.IGNORECASE` on the original content). -/
def cdTimeBodyP (cs : List Char) (i : Nat) : List Nat :=
  seqP (classRangeGP Char.isDigit 1 2)
    (seqP (litP [':'])
      (seqP (classRangeGP Char.isDigit 2 2)
        (seqP (classStarGP pyIsSpace) ampmP))) cs i

/-- Body of the calendar date-extraction pattern: 1-2 digits, a
slash-or-dash separator, 1-2 digits, a separator, 2-4 digits (the whole
pattern is the capture group). -/
def cdDateBodyP (cs : List Char) (i : Nat) : List Nat :=
  seqP (classRangeGP Char.isDigit 1 2)
    (seqP (classRangeGP (fun c => c = '/' || c = '-') 1 1)
      (seqP (classRangeGP Char.isDigit 1 2)
        (seqP (classRangeGP (fun c => c = '/' || c = '-') 1 1)
          (classRangeGP Char.isDigit 2 4)))) cs i

/-- Body of `r'(\d+\s*(?:min|hour|hr))'` (`re.IGNORECASE`). -/
def cdDurationBodyP (cs : List Char) (i : Nat) : List Nat :=
  seqP (classPlusGP Char.isDigit)
    (seqP (classStarGP pyIsSpace)
      (fun cs' j => litCIP "min".data cs' j ++ litCIP "hour".data cs' j ++
        litCIP "hr".data cs' j)) cs i

/-- `IntentClassifier._extract_calendar_data`. -/
def extractCalendarData (content : String) : List (String × String) :=
  [("raw_content", content)] ++
    (match extractP cdTimeBodyP content.data with
     | some t => [("time", String.mk t)]
     | none => []) ++
    (match extractP cdDateBodyP content.data with
     | some d => [("date", String.mk d)]
     | none => []) ++
    (match extractP cdDurationBodyP content.data with
     | some d => [("duration", String.mk d)]
     | none => []) ++
    [("title", String.intercalate " " ((pyTokens content).take 8))]

/-- Regex `[:\s]` in the error-query pattern. -/
def colonOrSpace (c : Char) : Bool :=
  c = ':' || pyIsSpace c

/-- Regex `[^\n]`. -/
def notNewline (c : Char) : Bool :=
  !(c = '\n')

/-- `re.search(r'error[:\s]+([^\n]+)', content_lower)`: `group(1)` of
the leftmost match, with `[:\s]+` taken in greedy preference order and
`([^\n]+)` greedy (maximal run, no trailing anchor). -/
def errorQueryExtract (cs : List Char) : Option (List Char) :=
  ((List.range (cs.length + 1)).find? fun i =>
      matchesAt cs "error".data i &&
        ((List.range (runLen colonOrSpace cs (i + 5) + 1)).any fun r =>
          1 ≤ r && 1 ≤ runLen notNewline cs (i + 5 + r))).bind fun i =>
    (((List.range (runLen colonOrSpace cs (i + 5) + 1)).reverse).find? fun r =>
        1 ≤ r && 1 ≤ runLen notNewline cs (i + 5 + r)).map fun r =>
      (cs.drop (i + 5 + r)).take (runLen notNewline cs (i + 5 + r))

/-! ## `IntentClassifier`: per-category checkers and `classify` -/

/-- The dictionary a `_check_*_intent` method returns: `confidence`,
`reasoning`, `actions`, and the optional `data` key (absent = `[]`,
matching the source's `.get('data', {})`). -/
structure CheckResult where
  confidence : ℚ
  reasoning : String
  actions : List String
  data : List (String × String)
deriving Repr, DecidableEq

/-- `{'confidence': 0, 'reasoning': '', 'actions': []}`. -/
def zeroCheck : CheckResult :=
  ⟨0, "", [], []⟩

/-- `IntentClassifier._check_calendar_intent`. -/
def checkCalendarIntent (content : String) : CheckResult :=
  let cl := (pyLower content).data
  let m1 := meetingSearch cl
  let m2 := timeSearch content.data
  let m3 := dateRelSearch cl
  let m3b := !m3 && dateAbsSearch cl
  let m4 := durationSearch cl
  let score : ℚ := (if m1 then 0.4 else 0) + (if m2 then 0.3 else 0) +
    (if m3 then 0.3 else 0) + (if m3b then 0.3 else 0)
  let labels := (if m1 then ["meeting keyword detected"] else []) ++
    (if m2 then ["time detected"] else []) ++
    (if m3 then ["relative date detected"] else []) ++
    (if m3b then ["absolute date detected"] else []) ++
    (if m4 then ["duration detected"] else [])
  if score < 0.4 then zeroCheck
  else
    ⟨min score 1,
      "Calendar event indicators: " ++ String.intercalate ", " labels,
      ["create_calendar_event", "set_reminder"],
      extractCalendarData content⟩

/-- The verb list of `_check_reminder_intent`. -/
def reminderVerbs : List String :=
  ["buy", "call", "email", "send", "finish", "complete", "start"]

/-- `IntentClassifier._check_reminder_intent`.  Returns `none` exactly
where the source would raise `IndexError`: `content.split()[0]` is
evaluated whenever the token count is below 10, including for token-less
content. -/
def checkReminderIntent (content : String) : Option CheckResult :=
  let cl := (pyLower content).data
  let m1 := todoSearch cl
  let m2 := prioritySearch cl
  let base : ℚ := (if m1 then 0.5 else 0) + (if m2 then 0.2 else 0)
  let baseMatches := (if m1 then ["todo keyword detected"] else []) ++
    (if m2 then ["priority keyword detected"] else [])
  let finish := fun (score : ℚ) (labels : List String) =>
    if score < 0.5 then zeroCheck
    else
      ⟨min score 1, "Reminder indicators: " ++ String.intercalate ", " labels,
        ["create_reminder", "add_to_todo_list"], [("task", pyStrip content)]⟩
  if (pyTokens content).length < 10 then
    match (pyTokens content).head? with
    | none => none
    | some w =>
      let verb := reminderVerbs.contains (pyLower w)
      some (finish (base + if verb then 0.3 else 0)
        (baseMatches ++ if verb then ["action verb detected"] else []))
  else
    some (finish base baseMatches)

/-- `IntentClassifier._check_error_intent`. -/
def checkErrorIntent (content : String) : CheckResult :=
  let cl := (pyLower content).data
  let m1 := errKwSearch cl
  let m2 := stackTraceSearch content.data
  let m3 := langSearch cl
  let score : ℚ := (if m1 then 0.3 else 0) + (if m2 then 0.5 else 0) +
    (if m3 then 0.2 else 0)
  let labels := (if m1 then ["error keyword detected"] else []) ++
    (if m2 then ["stack trace pattern detected"] else []) ++
    (if m3 then ["programming language detected"] else [])
  if score < 0.5 then zeroCheck
  else
    let errorQuery := match errorQueryExtract cl with
      | some g => String.mk g
      | none => pyTake 100 content
    ⟨min score 1, "Error indicators: " ++ String.intercalate ", " labels,
      ["search_stackoverflow", "search_google", "search_github"],
      [("error_query", pyStrip errorQuery)]⟩

/-- `IntentClassifier._check_search_intent`. -/
def checkSearchIntent (content : String) : CheckResult :=
  let cl := (pyLower content).data
  let m1 := questionSearch cl
  let m2 := definitionSearch cl
  let m3 := endsWithQuestionMark content
  let score : ℚ := (if m1 then 0.4 else 0) + (if m2 then 0.5 else 0) +
    (if m3 then 0.3 else 0)
  let labels := (if m1 then ["question word detected"] else []) ++
    (if m2 then ["definition pattern detected"] else []) ++
    (if m3 then ["question mark detected"] else [])
  if score < 0.4 then zeroCheck
  else
    ⟨min score 1, "Search indicators: " ++ String.intercalate ", " labels,
      ["search_google", "search_wikipedia"], [("query", pyStrip content)]⟩

/-- `IntentClassifier._check_contact_intent`. -/
def checkContactIntent (content : String) : CheckResult :=
  let email := emailExtract content.data
  let phone := phoneExtract content.data
  let score : ℚ := (if email.isSome then 0.6 else 0) +
    (if phone.isSome then 0.6 else 0)
  let labels := (if email.isSome then ["email detected"] else []) ++
    (if phone.isSome then ["phone number detected"] else [])
  let data := (match email with
      | some e => [("email", String.mk e)]
      | none => []) ++
    (match phone with
      | some p => [("phone", String.mk p)]
      | none => [])
  if score < 0.6 then zeroCheck
  else
    ⟨min score 1, "Contact indicators: " ++ String.intercalate ", " labels,
      ["save_contact"] ++ (if email.isSome then ["send_email"] else []) ++
        (if phone.isSome then ["call_phone"] else []),
      data⟩

/-- `IntentClassifier._check_file_intent`.  The source assigns
`data['path']` for a Windows match and then overwrites it on a Unix
match. -/
def checkFileIntent (content : String) : CheckResult :=
  let win := winPathExtract content.data
  let unix := unixPathExtract content.data
  let score : ℚ := (if win.isSome then 0.7 else 0) +
    (if unix.isSome then 0.7 else 0)
  let labels := (if win.isSome then ["Windows path detected"] else []) ++
    (if unix.isSome then ["Unix path detected"] else [])
  let data := match unix, win with
    | some u, _ => [("path", String.mk u)]
    | none, some w => [("path", String.mk w)]
    | none, none => []
  if score < 0.7 then zeroCheck
  else
    ⟨min score 1, "File path indicators: " ++ String.intercalate ", " labels,
      ["open_file", "open_file_location"], data⟩

/-- The classifier's result dictionary. -/
structure Classification where
  intent : String
  confidence : ℚ
  reasoning : String
  suggested_actions : List String
  extracted_data : List (String × String)
  content_preview : String
deriving Repr, DecidableEq

/-- `IntentClassifier._no_action_response`. -/
def noActionResponse : Classification :=
  ⟨"none", 0, "No clear intent detected", [], [], ""⟩

/-- `IntentClassifier._url_response`. -/
def urlResponse (url : String) : Classification :=
  ⟨"open_url", 1, "URL detected in clipboard", ["open_in_browser"],
    [("url", url)], url⟩

/-- `IntentClassifier._file_response`. -/
def fileResponse (filePath : String) : Classification :=
  ⟨"file", 1, "File path detected in clipboard", ["open_file", "show_in_folder"],
    [("path", filePath)], filePath⟩

/-- `IntentClassifier._image_response`.  Its confidence is `0.7` in the
source. -/
def imageResponse : Classification :=
  ⟨"image", 0.7, "Image detected in clipboard - may contain text or error",
    ["extract_text", "search_image"], [], "[Image]"⟩

/-- Python `max(items, key=f)` over a nonempty list: scan left to right,
replacing the current best only on a strictly greater key, so the first
of several maximal elements wins. -/
def pyMax {α : Type} (f : α → ℚ) (x : α) (xs : List α) : α :=
  xs.foldl (fun acc y => if f acc < f y then y else acc) x

/-- `max` over a possibly-empty list, as `scores.items()` is used. -/
def pyMaxBy {α : Type} (f : α → ℚ) : List α → Option α
  | [] => none
  | x :: xs => some (pyMax f x xs)

/-- The `scores` dictionary of `classify`, in its insertion order
(`calendar, reminder, error, search, contact, file`); `rrem` is the
already-computed reminder entry. -/
def scoresWith (content : String) (rrem : CheckResult) : List (String × CheckResult) :=
  [("calendar", checkCalendarIntent content), ("reminder", rrem),
   ("error", checkErrorIntent content), ("search", checkSearchIntent content),
   ("contact", checkContactIntent content), ("file", checkFileIntent content)]

/-- The winning branch of `classify`: `content_preview` is truncated to
100 characters with an ellipsis. -/
def classificationOf (content : String) (best : String × CheckResult) : Classification :=
  ⟨best.1, best.2.confidence, best.2.reasoning, best.2.actions, best.2.data,
    if content.length > 100 then pyTake 100 content ++ "..." else content⟩

/-- The text path of `classify`: run all six checkers, pick the best by
confidence, apply the global `0.3` floor.  `none` models the
`IndexError` the reminder checker can raise. -/
def classifyText (content : String) : Option Classification :=
  match checkReminderIntent content with
  | none => none
  | some rrem =>
    let scores := scoresWith content rrem
    match pyMaxBy (fun p => p.2.confidence) scores with
    | none => some noActionResponse
    | some best =>
      if best.2.confidence < 0.3 then some noActionResponse
      else some (classificationOf content best)

/-- `IntentClassifier.classify`.  Empty or whitespace-only content
(`not content or len(content.strip()) == 0`) short-circuits to the
no-action response before the `content_type` dispatch; `url`, `file`
and `image` types bypass scoring. -/
def classify (content : String) (contentType : String) : Option Classification :=
  if pyStripEmpty content then some noActionResponse
  else if contentType = "url" then some (urlResponse content)
  else if contentType = "file" then some (fileResponse content)
  else if contentType = "image" then some imageResponse
  else classifyText content

/-! ## `PersonalizedConcierge`: behavior store and pattern mining -/

/-- One element of `behavior_data["clipboard_events"]`.  `track_action`
writes the keys `timestamp`, `clipboard_content`, `signature` and
`action`; `content_preview` models the *absent* key that
`_build_patterns` nevertheless reads with `event.get("content_preview",
"")`. -/
structure BehaviorEvent where
  timestamp : String
  clipboard_content : String
  signature : String
  action : String
  content_preview : Option String
deriving Repr, DecidableEq

/-- `defaultdict(int)[k] += 1` / `d[k] = d.get(k, 0) + 1` on an
insertion-ordered dictionary. -/
def bumpAssoc {κ : Type} [DecidableEq κ] (l : List (κ × Nat)) (k : κ) : List (κ × Nat) :=
  if l.any (fun p => p.1 = k) then
    l.map fun p => if p.1 = k then (p.1, p.2 + 1) else p
  else l ++ [(k, 1)]

/-- Dictionary read with default 0. -/
def assocCount {κ : Type} [DecidableEq κ] (l : List (κ × Nat)) (k : κ) : Nat :=
  match l.find? (fun p => p.1 = k) with
  | some p => p.2
  | none => 0

/-- Regex class of the context-hint pattern: the negated set of
angle brackets, colon, double quote, pipe, question mark, star and
newline (note this class *does* allow backslash and slash). -/
def hintChar (c : Char) : Bool :=
  !(c = '<' || c = '>' || c = ':' || c = '"' || c = '|' || c = '?' ||
    c = '*' || c = '\n')

/-- `re.findall` for the context-hint pattern (drive letter, colon,
backslash, then a nonempty greedy run of `hintChar`): scan left to
right, emit each greedy match, resume after its end. -/
def winHintFindAux : Nat → List Char → Nat → List (List Char)
  | 0, _, _ => []
  | fuel + 1, cs, i =>
    if i < cs.length then
      if (charAt cs i).any Char.isUpper && matchesAt cs [':', '\\'] (i + 1) &&
          1 ≤ runLen hintChar cs (i + 3) then
        ((cs.drop i).take (3 + runLen hintChar cs (i + 3))) ::
          winHintFindAux fuel cs (i + 3 + runLen hintChar cs (i + 3))
      else winHintFindAux fuel cs (i + 1)
    else []

/-- All matches of the context-hint pattern in order. -/
def winHintFindall (cs : List Char) : List (List Char) :=
  winHintFindAux (cs.length + 1) cs 0

/-- Split a character list into the maximal runs of characters *not*
satisfying `sep`, dropping empty runs (generalizes `tokensAux`). -/
def runsSplitAux (sep : Char → Bool) : List Char → List Char → List (List Char)
  | [], acc => if acc.isEmpty then [] else [acc.reverse]
  | c :: cs, acc =>
    if sep c then
      if acc.isEmpty then runsSplitAux sep cs []
      else acc.reverse :: runsSplitAux sep cs []
    else
      runsSplitAux sep cs (c :: acc)

/-- `str(Path(p).parent)` for a string matched by the context-hint
pattern, under Windows `pathlib` semantics (the concierge targets
Windows: it uses `win32clipboard` and drive-letter paths): keep the
`X:\` root, split the remainder on backslash/slash separators ignoring
empty pieces, and drop the last component; a path with at most one
component has the bare root as its parent. -/
def winParent (p : String) : String :=
  let root := String.mk (p.data.take 2) ++ "\\"
  let comps := runsSplitAux (fun c => c = '\\' || c = '/') (p.data.drop 3) []
  if comps.length ≤ 1 then root
  else root ++ String.intercalate "\\" (comps.dropLast.map String.mk)

/-- The in-memory `self.patterns` dictionary built by
`_build_patterns`: `workflows` (a `defaultdict(int)` keyed by signature
pairs), the never-populated `common_sequences` list, and the
`context_hints` directory-frequency map. -/
structure Patterns where
  workflows : List ((String × String) × Nat)
  common_sequences : List String
  context_hints : List (String × Nat)
deriving Repr, DecidableEq

/-- `PersonalizedConcierge._build_patterns`: for every adjacent pair of
events, form the signatures of their `content_preview` fields (absent
key ⇒ `""`) and count the ordered pair; also count parent directories
of context-hint path matches in each event's `content_preview`. -/
def buildPatterns (events : List BehaviorEvent) : Patterns :=
  let workflows := (events.zip events.tail).foldl
    (fun acc pair =>
      bumpAssoc acc
        (createSignature (pair.1.content_preview.getD ""),
         createSignature (pair.2.content_preview.getD "")))
    []
  let hints := events.foldl
    (fun acc e =>
      (winHintFindall (e.content_preview.getD "").data).foldl
        (fun acc2 p => bumpAssoc acc2 (winParent (String.mk p))) acc)
    []
  ⟨workflows, [], hints⟩

/-- The in-memory state of a `PersonalizedConcierge`:
`behavior_data["clipboard_events"]`, `behavior_data["command_history"]`
(never touched by the logic) and the derived `self.patterns`. -/
structure ConciergeState where
  clipboard_events : List BehaviorEvent
  command_history : List String
  patterns : Patterns
deriving Repr, DecidableEq

/-- `PersonalizedConcierge.track_action`: append the new event (content
truncated to 200 characters for storage, signature computed from the
full content), enforce the 1000-event retention cap by keeping the last
1000 (`[-1000:]`), persist (a pure no-op here), and rebuild the pattern
tables exactly when the retained event count is a multiple of 10.
`ts` stands for the source's `datetime.now().isoformat()`. -/
def trackAction (s : ConciergeState) (ts clipboardContent actionTaken : String) :
    ConciergeState :=
  let event : BehaviorEvent :=
    ⟨ts, pyTake 200 clipboardContent, createSignature clipboardContent,
      actionTaken, none⟩
  let events1 := s.clipboard_events ++ [event]
  let events2 :=
    if events1.length > 1000 then events1.drop (events1.length - 1000) else events1
  let patterns2 :=
    if events2.length % 10 = 0 then buildPatterns events2 else s.patterns
  ⟨events2, s.command_history, patterns2⟩

/-! ## `PersonalizedConcierge._get_personalized_suggestion` -/

/-- A clipboard metadata entry as read by the concierge (`entry.get`
with defaults). -/
structure ClipEntry where
  id : Option String
  content_preview : Option String
  content_type : Option String
deriving Repr, DecidableEq

/-- Stable insert for a descending-by-count sort: `x` goes before the
first element whose count is at most `x`'s (so earlier equal-count
elements stay first, as with Python's stable `list.sort`). -/
def insertDescBy (x : String × Nat) : List (String × Nat) → List (String × Nat)
  | [] => [x]
  | y :: ys => if y.2 ≤ x.2 then x :: y :: ys else y :: insertDescBy x ys

/-- Stable sort by descending count
(`related_actions.sort(key=lambda x: x[1], reverse=True)`). -/
def sortDescBy (l : List (String × Nat)) : List (String × Nat) :=
  l.foldr insertDescBy []

/-- The `related_actions` local of `_get_personalized_suggestion`: the
follow-up signatures whose workflow count with `signature` is at least
2 ("happened at least twice"), with their counts, sorted by descending
count. -/
def relatedActionsFor (patterns : Patterns) (signature : String) :
    List (String × Nat) :=
  sortDescBy
    ((patterns.workflows.filter fun p => p.1.1 = signature && 2 ≤ p.2).map
      fun p => (p.1.2, p.2))

/-- `group(1)` of `re.search(r'(\w+)\.py', content)`: the first word
run that is immediately followed by `.py`. -/
def pyFilenameGroup (cs : List Char) : Option (List Char) :=
  ((List.range (cs.length + 1)).find? fun i =>
      1 ≤ runLen isWordChar cs i &&
        matchesAt cs ".py".data (i + runLen isWordChar cs i)).map
    fun i => (cs.drop i).take (runLen isWordChar cs i)

/-- `"Test: python -c 'import <package>'"`. -/
def pipTestStr : String :=
  "Test: python -c " ++ String.mk [sq] ++ "import <package>" ++ String.mk [sq]

/-- `"Search: Your error + 'llama-cpp-python'"`. -/
def searchErrStr : String :=
  "Search: Your error + " ++ String.mk [sq] ++ "llama-cpp-python" ++ String.mk [sq]

/-- `PersonalizedConcierge._get_personalized_suggestion`.  Note that
the source computes `base_actions` and the filtered-and-sorted
`related_actions` and then uses neither: the returned suggestions are
only the signature-keyed template hints and the working-directory hint.
`none` models the (unreachable) classifier `IndexError`. -/
def getPersonalizedSuggestion (patterns : Patterns) (entry : ClipEntry) :
    Option (List String) :=
  let content := entry.content_preview.getD ""
  let contentType := entry.content_type.getD "text"
  match classify content contentType with
  | none => none
  | some classification =>
    let _baseActions := classification.suggested_actions
    let signature := createSignature content
    let _relatedActions := relatedActionsFor patterns signature
    let s1 := if signature = "python_filename" then
        match pyFilenameGroup content.data with
        | some g => ["Run: python " ++ String.mk g ++ ".py"]
        | none => []
      else []
    let s2 := if signature = "pip_install" then [pipTestStr] else []
    let s3 := if signature = "error_message" then
        ["Check: Did you have this error before?", searchErrStr]
      else []
    let s4 := match (winHintFindall content.data).head? with
      | some p =>
        let workingDir := winParent (String.mk p)
        if patterns.context_hints.any (fun q => q.1 = workingDir) then
          ["Working in: " ++ workingDir]
        else []
      | none => []
    some (s1 ++ s2 ++ s3 ++ s4)

/-! ## `ClipboardWatcher` dedup gate -/

/-- `DEDUP_WINDOW = 5.0` seconds.  Times are modelled as rationals. -/
def DEDUP_WINDOW : ℚ := 5

/-- The `recent_captures` table: content fingerprint → last-seen time. -/
def DedupTable : Type := String → Option ℚ

/-- `ClipboardWatcher._cleanup_old_captures`: drop entries with
`ts <= now - DEDUP_WINDOW`. -/
def cleanupOldCaptures (m : DedupTable) (now : ℚ) : DedupTable :=
  fun h => match m h with
    | some ts => if ts ≤ now - DEDUP_WINDOW then none else some ts
    | none => none

/-- `ClipboardWatcher._is_duplicate`: a hit younger than the window is
a duplicate (table unchanged); otherwise sweep expired entries and
record the fingerprint at `now`, reporting a non-duplicate. -/
def isDuplicate (m : DedupTable) (contentHash : String) (now : ℚ) :
    Bool × DedupTable :=
  match m contentHash with
  | some lastCaptured =>
    if now - lastCaptured < DEDUP_WINDOW then (true, m)
    else
      let m2 := cleanupOldCaptures m now
      (false, fun g => if g = contentHash then some now else m2 g)
  | none =>
    let m2 := cleanupOldCaptures m now
    (false, fun g => if g = contentHash then some now else m2 g)

/-! ## Specification-side definitions used for comparison -/

/-- From the spec: the direct recount of adjacent event pairs in the
retained history whose `signature` fields are `k.1` and `k.2` (the
quantity the WorkflowPattern count is claimed to equal). -/
def specAdjacentPairCount (events : List BehaviorEvent) (k : String × String) : Nat :=
  (events.zip events.tail).countP fun p =>
    p.1.signature = k.1 && p.2.signature = k.2

/-! ## Support lemmas -/

lemma ite_weight_nonneg (p : Prop) [Decidable p] (w : ℚ) (hw : 0 ≤ w) :
    0 ≤ (if p then w else 0) := by
  split <;> simp [hw]

lemma min_one_bounds {s : ℚ} (hs : 0 ≤ s) :
    0 ≤ min s 1 ∧ min s 1 ≤ 1 :=
  ⟨le_min hs (by norm_num), min_le_right _ _⟩

/-- All `_check_*_intent` bodies end with the same floor-then-cap
shape; its confidence always lies in `[0, 1]` when the raw score is
nonnegative. -/
lemma floorCap_conf_bounds (score floor : ℚ) (hs : 0 ≤ score) (rsn : String)
    (acts : List String) (d : List (String × String)) :
    0 ≤ (if score < floor then zeroCheck else CheckResult.mk (min score 1) rsn acts d).confidence ∧
      (if score < floor then zeroCheck else CheckResult.mk (min score 1) rsn acts d).confidence ≤ 1 := by
  split
  · exact ⟨le_refl 0, by norm_num [zeroCheck]⟩
  · exact min_one_bounds hs

/-- Lower bound for the floor-then-cap shape: when the raw score clears
the floor, the confidence is at least any `v ≤ min(score, 1)`. -/
lemma floorCap_conf_ge (score floor v : ℚ) (rsn : String) (acts : List String)
    (d : List (String × String)) (hvs : v ≤ score) (hv1 : v ≤ 1)
    (hfs : floor ≤ score) :
    v ≤ (if score < floor then zeroCheck
        else CheckResult.mk (min score 1) rsn acts d).confidence := by
  rw [if_neg (not_lt_of_ge hfs)]
  exact le_min hvs hv1

lemma tokensAux_ne_nil :
    ∀ (cs acc : List Char), cs.all pyIsSpace = false ∨ acc ≠ [] →
      tokensAux cs acc ≠ [] := by
  intro cs
  induction cs with
  | nil =>
    intro acc h
    have hacc : acc ≠ [] := by
      rcases h with h | h
      · simp at h
      · exact h
    have hE : acc.isEmpty = false := by simpa [List.isEmpty_iff] using hacc
    simp [tokensAux, hE]
  | cons c cs ih =>
    intro acc h
    show (if pyIsSpace c = true then
        (if acc.isEmpty = true then tokensAux cs [] else acc.reverse :: tokensAux cs [])
      else tokensAux cs (c :: acc)) ≠ []
    by_cases hc : pyIsSpace c = true
    · rw [if_pos hc]
      by_cases hacc : acc.isEmpty = true
      · rw [if_pos hacc]
        apply ih
        left
        rcases h with h | hne
        · simpa [List.all_cons, hc] using h
        · exact absurd (List.isEmpty_iff.mp hacc) hne
      · rw [if_neg hacc]
        exact List.cons_ne_nil _ _
    · rw [if_neg hc]
      exact ih (c :: acc) (Or.inr (List.cons_ne_nil c acc))

lemma pyTokens_ne_nil {s : String} (h : pyStripEmpty s = false) :
    pyTokens s ≠ [] := by
  have : tokensAux s.data [] ≠ [] :=
    tokensAux_ne_nil s.data [] (Or.inl (by simpa [pyStripEmpty] using h))
  simpa [pyTokens, List.map_eq_nil_iff] using this

lemma checkReminderIntent_isSome {s : String} (h : pyStripEmpty s = false) :
    (checkReminderIntent s).isSome = true := by
  have htok : pyTokens s ≠ [] := pyTokens_ne_nil h
  simp only [checkReminderIntent]
  split
  · rcases hh : (pyTokens s).head? with _ | w
    · exact absurd (List.head?_eq_none_iff.mp hh) htok
    · simp [hh]
  · simp

lemma checkCalendarIntent_bounds (s : String) :
    0 ≤ (checkCalendarIntent s).confidence ∧ (checkCalendarIntent s).confidence ≤ 1 := by
  refine floorCap_conf_bounds _ _ ?_ _ _ _
  exact add_nonneg
    (add_nonneg
      (add_nonneg (ite_weight_nonneg _ _ (by norm_num))
        (ite_weight_nonneg _ _ (by norm_num)))
      (ite_weight_nonneg _ _ (by norm_num)))
    (ite_weight_nonneg _ _ (by norm_num))

lemma checkReminderIntent_bounds {s : String} {r : CheckResult}
    (h : checkReminderIntent s = some r) :
    0 ≤ r.confidence ∧ r.confidence ≤ 1 := by
  simp only [checkReminderIntent] at h
  split at h
  · split at h
    · exact absurd h (by simp)
    · injection h with h
      subst h
      refine floorCap_conf_bounds _ _ ?_ _ _ _
      exact add_nonneg
        (add_nonneg (ite_weight_nonneg _ _ (by norm_num))
          (ite_weight_nonneg _ _ (by norm_num)))
        (ite_weight_nonneg _ _ (by norm_num))
  · injection h with h
    subst h
    refine floorCap_conf_bounds _ _ ?_ _ _ _
    exact add_nonneg (ite_weight_nonneg _ _ (by norm_num))
      (ite_weight_nonneg _ _ (by norm_num))

lemma checkErrorIntent_bounds (s : String) :
    0 ≤ (checkErrorIntent s).confidence ∧ (checkErrorIntent s).confidence ≤ 1 := by
  refine floorCap_conf_bounds _ _ ?_ _ _ _
  exact add_nonneg
    (add_nonneg (ite_weight_nonneg _ _ (by norm_num))
      (ite_weight_nonneg _ _ (by norm_num)))
    (ite_weight_nonneg _ _ (by norm_num))

lemma checkSearchIntent_bounds (s : String) :
    0 ≤ (checkSearchIntent s).confidence ∧ (checkSearchIntent s).confidence ≤ 1 := by
  refine floorCap_conf_bounds _ _ ?_ _ _ _
  exact add_nonneg
    (add_nonneg (ite_weight_nonneg _ _ (by norm_num))
      (ite_weight_nonneg _ _ (by norm_num)))
    (ite_weight_nonneg _ _ (by norm_num))

lemma checkContactIntent_bounds (s : String) :
    0 ≤ (checkContactIntent s).confidence ∧ (checkContactIntent s).confidence ≤ 1 := by
  refine floorCap_conf_bounds _ _ ?_ _ _ _
  exact add_nonneg (ite_weight_nonneg _ _ (by norm_num))
    (ite_weight_nonneg _ _ (by norm_num))

lemma checkFileIntent_bounds (s : String) :
    0 ≤ (checkFileIntent s).confidence ∧ (checkFileIntent s).confidence ≤ 1 := by
  refine floorCap_conf_bounds _ _ ?_ _ _ _
  exact add_nonneg (ite_weight_nonneg _ _ (by norm_num))
    (ite_weight_nonneg _ _ (by norm_num))

lemma pyMax_cons {α : Type} (f : α → ℚ) (x y : α) (ys : List α) :
    pyMax f x (y :: ys) = pyMax f (if f x < f y then y else x) ys := rfl

lemma pyMax_mem {α : Type} (f : α → ℚ) (x : α) (xs : List α) :
    pyMax f x xs ∈ x :: xs := by
  induction xs generalizing x with
  | nil => simp [pyMax]
  | cons y ys ih =>
    rw [pyMax_cons]
    rcases List.mem_cons.mp (ih (if f x < f y then y else x)) with h | h
    · rw [h]
      split
      · exact List.mem_cons_of_mem _ (List.mem_cons_self _ _)
      · exact List.mem_cons_self _ _
    · exact List.mem_cons_of_mem _ (List.mem_cons_of_mem _ h)

lemma pyMax_ub {α : Type} (f : α → ℚ) (x : α) (xs : List α) :
    ∀ y ∈ x :: xs, f y ≤ f (pyMax f x xs) := by
  induction xs generalizing x with
  | nil =>
    intro y hy
    rcases List.mem_cons.mp hy with h | h
    · subst h; exact le_refl _
    · simp at h
  | cons z zs ih =>
    intro y hy
    rw [pyMax_cons]
    have hstep : f x ≤ f (if f x < f z then z else x) ∧
        f z ≤ f (if f x < f z then z else x) := by
      split
      · exact ⟨le_of_lt ‹_›, le_refl _⟩
      · exact ⟨le_refl _, le_of_not_lt ‹_›⟩
    have hmax : f (if f x < f z then z else x) ≤
        f (pyMax f (if f x < f z then z else x) zs) :=
      ih _ _ (List.mem_cons_self _ _)
    rcases List.mem_cons.mp hy with h | h
    · subst h; exact le_trans hstep.1 hmax
    · rcases List.mem_cons.mp h with h' | h'
      · subst h'; exact le_trans hstep.2 hmax
      · exact ih _ _ (List.mem_cons_of_mem _ h')

lemma pyMax_first {α : Type} (f : α → ℚ) (x : α) (xs : List α) :
    ∃ l1 l2, x :: xs = l1 ++ pyMax f x xs :: l2 ∧
      ∀ y ∈ l1, f y < f (pyMax f x xs) := by
  induction xs generalizing x with
  | nil => exact ⟨[], [], by simp [pyMax], by simp⟩
  | cons z zs ih =>
    rw [pyMax_cons]
    by_cases hxz : f x < f z
    · rw [if_pos hxz]
      obtain ⟨l1, l2, heq, hlt⟩ := ih z
      refine ⟨x :: l1, l2, by simpa using heq, ?_⟩
      intro y hy
      rcases List.mem_cons.mp hy with h | h
      · subst h
        exact lt_of_lt_of_le hxz (pyMax_ub f z zs z (List.mem_cons_self _ _))
      · exact hlt y h
    · rw [if_neg hxz]
      obtain ⟨l1, l2, heq, hlt⟩ := ih x
      cases l1 with
      | nil =>
        have hm : pyMax f x zs = x := by
          have := heq
          simp only [List.nil_append] at this
          exact (List.cons.injEq _ _ _ _).mp this.symm |>.1
        refine ⟨[], z :: zs, by simp [hm], by simp⟩
      | cons a l1' =>
        have hax : a = x ∧ zs = l1' ++ pyMax f x zs :: l2 := by
          have := heq
          simp only [List.cons_append] at this
          exact ⟨((List.cons.injEq _ _ _ _).mp this |>.1).symm,
            (List.cons.injEq _ _ _ _).mp this |>.2⟩
        refine ⟨x :: z :: l1', l2, ?_, ?_⟩
        · conv_lhs => rw [hax.2]
          simp
        · intro y hy
          have hxlt : f x < f (pyMax f x zs) := by
            have := hlt a (List.mem_cons_self _ _)
            rwa [hax.1] at this
          rcases List.mem_cons.mp hy with h | h
          · subst h; exact hxlt
          · rcases List.mem_cons.mp h with h' | h'
            · subst h'
              exact lt_of_le_of_lt (le_of_not_lt hxz) hxlt
            · exact hlt y (List.mem_cons_of_mem _ h')

lemma mem_classStarGP_self (p : Char → Bool) (cs : List Char) (j : Nat) :
    j ∈ classStarGP p cs j := by
  simp only [classStarGP, List.mem_map, List.mem_reverse, List.mem_range]
  exact ⟨0, Nat.succ_pos _, rfl⟩

lemma mem_starGP_self (f : List Char → Nat → List Nat) (fuel : Nat)
    (cs : List Char) (i : Nat) : i ∈ starGP f fuel cs i := by
  cases fuel <;> simp [starGP]

lemma mem_unixPathBodyP {cs : List Char} {i : Nat}
    (h : charAt cs i = some '/') : i + 1 ∈ unixPathBodyP cs i := by
  have hd : (cs.drop i).head? = some '/' := by
    rw [List.head?_drop]
    simpa [charAt, List.get?_eq_getElem?] using h
  have hpre : matchesAt cs ['/'] i = true := by
    rcases hdrop : cs.drop i with _ | ⟨c, t⟩
    · simp [hdrop] at hd
    · rw [hdrop] at hd
      simp only [List.head?_cons, Option.some.injEq] at hd
      subst hd
      simp [matchesAt, hdrop, List.isPrefixOf]
  simp only [unixPathBodyP, seqP, litP, hpre, if_pos, List.flatMap_cons,
    List.flatMap_nil, List.append_nil, List.mem_flatMap]
  exact ⟨i + 1, mem_starGP_self _ _ _ _,
    by simpa using mem_classStarGP_self notSlashNul cs (i + 1)⟩

lemma unixPathExtract_isSome_of_slash {cs : List Char} (h : '/' ∈ cs) :
    (unixPathExtract cs).isSome = true := by
  obtain ⟨i, hi⟩ : ∃ i, cs.get? i = some '/' := List.mem_iff_get?.mp h
  have hlen : i < cs.length := by
    have := List.get?_eq_some.mp hi
    exact this.1
  have hms : matchSomeAt unixPathBodyP cs i = true := by
    have := List.ne_nil_of_mem (mem_unixPathBodyP (by simpa [charAt] using hi))
    simpa [matchSomeAt, List.isEmpty_iff] using this
  have hfind : ((List.range (cs.length + 1)).find? fun j =>
      matchSomeAt unixPathBodyP cs j).isSome = true := by
    rw [List.find?_isSome]
    exact ⟨i, by simp [List.mem_range]; omega, hms⟩
  rcases hj : (List.range (cs.length + 1)).find? fun j =>
      matchSomeAt unixPathBodyP cs j with _ | j
  · rw [hj] at hfind; simp at hfind
  · have hpj : matchSomeAt unixPathBodyP cs j = true := List.find?_some hj
    have hne : unixPathBodyP cs j ≠ [] := by
      simpa [matchSomeAt, List.isEmpty_iff] using hpj
    rcases hh : (unixPathBodyP cs j).head? with _ | e
    · exact absurd (List.head?_eq_none_iff.mp hh) hne
    · simp [unixPathExtract, hj, hh]

lemma checkFileIntent_conf_of_slash {s : String} (h : '/' ∈ s.data) :
    (0.7 : ℚ) ≤ (checkFileIntent s).confidence := by
  have hu : (unixPathExtract s.data).isSome = true :=
    unixPathExtract_isSome_of_slash h
  have hscore : (0.7 : ℚ) ≤
      (if (winPathExtract s.data).isSome = true then (0.7 : ℚ) else 0) +
        (if (unixPathExtract s.data).isSome = true then (0.7 : ℚ) else 0) := by
    rw [if_pos hu]
    exact le_add_of_nonneg_left (ite_weight_nonneg _ _ (by norm_num))
  exact floorCap_conf_ge _ _ _ _ _ _ hscore (by norm_num) hscore

lemma classifyText_eq {content : String} {rrem : CheckResult}
    (h : checkReminderIntent content = some rrem) :
    classifyText content =
      if (pyMax (fun p : String × CheckResult => p.2.confidence)
            ("calendar", checkCalendarIntent content)
            [("reminder", rrem), ("error", checkErrorIntent content),
             ("search", checkSearchIntent content),
             ("contact", checkContactIntent content),
             ("file", checkFileIntent content)]).2.confidence < 0.3
      then some noActionResponse
      else some (classificationOf content
        (pyMax (fun p : String × CheckResult => p.2.confidence)
          ("calendar", checkCalendarIntent content)
          [("reminder", rrem), ("error", checkErrorIntent content),
           ("search", checkSearchIntent content),
           ("contact", checkContactIntent content),
           ("file", checkFileIntent content)])) := by
  simp only [classifyText, h, scoresWith, pyMaxBy]

lemma pyMax_scores_bounds {content : String} {rrem : CheckResult}
    (hrem : checkReminderIntent content = some rrem) :
    0 ≤ (pyMax (fun p : String × CheckResult => p.2.confidence)
          ("calendar", checkCalendarIntent content)
          [("reminder", rrem), ("error", checkErrorIntent content),
           ("search", checkSearchIntent content),
           ("contact", checkContactIntent content),
           ("file", checkFileIntent content)]).2.confidence ∧
      (pyMax (fun p : String × CheckResult => p.2.confidence)
          ("calendar", checkCalendarIntent content)
          [("reminder", rrem), ("error", checkErrorIntent content),
           ("search", checkSearchIntent content),
           ("contact", checkContactIntent content),
           ("file", checkFileIntent content)]).2.confidence ≤ 1 := by
  have hmem := pyMax_mem (fun p : String × CheckResult => p.2.confidence)
    ("calendar", checkCalendarIntent content)
    [("reminder", rrem), ("error", checkErrorIntent content),
     ("search", checkSearchIntent content),
     ("contact", checkContactIntent content),
     ("file", checkFileIntent content)]
  simp only [List.mem_cons, List.not_mem_nil, or_false] at hmem
  rcases hmem with h1 | h2 | h3 | h4 | h5 | h6
  · rw [h1]; exact checkCalendarIntent_bounds content
  · rw [h2]; exact checkReminderIntent_bounds hrem
  · rw [h3]; exact checkErrorIntent_bounds content
  · rw [h4]; exact checkSearchIntent_bounds content
  · rw [h5]; exact checkContactIntent_bounds content
  · rw [h6]; exact checkFileIntent_bounds content

lemma classifyText_isSome {content : String} (hws : pyStripEmpty content = false) :
    (classifyText content).isSome = true := by
  obtain ⟨rrem, hrem⟩ := Option.isSome_iff_exists.mp (checkReminderIntent_isSome hws)
  rw [classifyText_eq hrem]
  split <;> simp

/-! ## Claim theorems -/

/-- C7: for every input, `classify` returns a confidence in `[0, 1]`,
and whenever the returned confidence is `0` the intent is `"none"` and
the suggested-action list is empty. -/
theorem claimC7_confidence_range (content contentType : String) (r : Classification)
    (h : classify content contentType = some r) :
    (0 ≤ r.confidence ∧ r.confidence ≤ 1) ∧
      (r.confidence = 0 → r.intent = "none" ∧ r.suggested_actions = []) := by
  unfold classify at h
  by_cases hws : pyStripEmpty content = true
  · rw [if_pos hws] at h
    injection h with h
    subst h
    exact ⟨⟨le_refl 0, by norm_num [noActionResponse]⟩, fun _ => ⟨rfl, rfl⟩⟩
  · rw [if_neg hws] at h
    by_cases hu : contentType = "url"
    · rw [if_pos hu] at h
      injection h with h
      subst h
      exact ⟨⟨by norm_num [urlResponse], by norm_num [urlResponse]⟩,
        fun h0 => absurd h0 (by norm_num [urlResponse])⟩
    · rw [if_neg hu] at h
      by_cases hf : contentType = "file"
      · rw [if_pos hf] at h
        injection h with h
        subst h
        exact ⟨⟨by norm_num [fileResponse], by norm_num [fileResponse]⟩,
          fun h0 => absurd h0 (by norm_num [fileResponse])⟩
      · rw [if_neg hf] at h
        by_cases hi : contentType = "image"
        · rw [if_pos hi] at h
          injection h with h
          subst h
          exact ⟨⟨by norm_num [imageResponse], by norm_num [imageResponse]⟩,
            fun h0 => absurd h0 (by norm_num [imageResponse])⟩
        · rw [if_neg hi] at h
          have hws' : pyStripEmpty content = false := Bool.of_not_eq_true hws
          obtain ⟨rrem, hrem⟩ :=
            Option.isSome_iff_exists.mp (checkReminderIntent_isSome hws')
          rw [classifyText_eq hrem] at h
          by_cases hlow : (pyMax (fun p : String × CheckResult => p.2.confidence)
              ("calendar", checkCalendarIntent content)
              [("reminder", rrem), ("error", checkErrorIntent content),
               ("search", checkSearchIntent content),
               ("contact", checkContactIntent content),
               ("file", checkFileIntent content)]).2.confidence < 0.3
          · rw [if_pos hlow] at h
            injection h with h
            subst h
            exact ⟨⟨le_refl 0, by norm_num [noActionResponse]⟩, fun _ => ⟨rfl, rfl⟩⟩
          · rw [if_neg hlow] at h
            injection h with h
            subst h
            have hb := pyMax_scores_bounds hrem
            refine ⟨⟨hb.1, hb.2⟩, fun h0 => ?_⟩
            exfalso
            have h3 := not_lt.mp hlow
            rw [show (classificationOf content _).confidence =
              (pyMax (fun p : String × CheckResult => p.2.confidence)
                ("calendar", checkCalendarIntent content)
                [("reminder", rrem), ("error", checkErrorIntent content),
                 ("search", checkSearchIntent content),
                 ("contact", checkContactIntent content),
                 ("file", checkFileIntent content)]).2.confidence from rfl] at h0
            rw [h0] at h3
            norm_num at h3

/-- C7 witness: a concrete run through the scoring path. -/
theorem claimC7_confidence_range_witness :
    (0 ≤ noActionResponse.confidence ∧ noActionResponse.confidence ≤ 1) ∧
      (noActionResponse.confidence = 0 →
        noActionResponse.intent = "none" ∧ noActionResponse.suggested_actions = []) :=
  claimC7_confidence_range "ok thanks" "text" noActionResponse
    (by with_unfolding_all decide)

/-- C9: `classify` is total — the embedded classifier (whose only
fallible spot, the reminder extractor's `content.split()[0]`, is
modelled with `Option`) returns a result for every input, and empty or
whitespace-only content short-circuits to the no-action response before
any extractor runs. -/
theorem claimC9_classify_total (content contentType : String) :
    (classify content contentType).isSome = true ∧
      (pyStripEmpty content = true →
        classify content contentType = some noActionResponse) := by
  constructor
  · unfold classify
    by_cases hws : pyStripEmpty content = true
    · rw [if_pos hws]; rfl
    · rw [if_neg hws]
      by_cases hu : contentType = "url"
      · rw [if_pos hu]; rfl
      · rw [if_neg hu]
        by_cases hf : contentType = "file"
        · rw [if_pos hf]; rfl
        · rw [if_neg hf]
          by_cases hi : contentType = "image"
          · rw [if_pos hi]; rfl
          · rw [if_neg hi]
            exact classifyText_isSome (Bool.of_not_eq_true hws)
  · intro hws
    unfold classify
    rw [if_pos hws]

/-- C9 witness: whitespace-only content (which would make the reminder
extractor's index access fail if it were reached) yields the no-action
response. -/
theorem claimC9_classify_total_witness :
    (classify "   " "text").isSome = true ∧
      classify "   " "text" = some noActionResponse :=
  ⟨(claimC9_classify_total "   " "text").1,
    (claimC9_classify_total "   " "text").2 (by decide)⟩

lemma classify_text_route {content : String} (hws : pyStripEmpty content = false) :
    classify content "text" = classifyText content := by
  unfold classify
  rw [if_neg (by simp [hws]), if_neg (by decide), if_neg (by decide),
    if_neg (by decide)]

/-- C10: any non-blank text containing a `/` makes the unix-path
pattern match, so the file category scores at least `0.7` and `classify`
on text never returns intent `"none"` for such input. -/
theorem claimC10_slash_never_none (content : String)
    (hws : pyStripEmpty content = false) (hsl : '/' ∈ content.data) :
    (0.7 : ℚ) ≤ (checkFileIntent content).confidence ∧
      ∃ r, classify content "text" = some r ∧ r.intent ≠ "none" := by
  have hfile := checkFileIntent_conf_of_slash hsl
  refine ⟨hfile, ?_⟩
  obtain ⟨rrem, hrem⟩ :=
    Option.isSome_iff_exists.mp (checkReminderIntent_isSome hws)
  set f : String × CheckResult → ℚ := fun p => p.2.confidence with hf
  set c0 : String × CheckResult := ("calendar", checkCalendarIntent content) with hc0
  set rest : List (String × CheckResult) :=
    [("reminder", rrem), ("error", checkErrorIntent content),
     ("search", checkSearchIntent content),
     ("contact", checkContactIntent content),
     ("file", checkFileIntent content)] with hrest
  have hub : (checkFileIntent content).confidence ≤ f (pyMax f c0 rest) := by
    have := pyMax_ub f c0 rest ("file", checkFileIntent content)
      (by simp [hc0, hrest])
    simpa [hf] using this
  have h03 : ¬ (pyMax f c0 rest).2.confidence < 0.3 :=
    not_lt.mpr (le_trans (le_trans (by norm_num) hfile) hub)
  rw [classify_text_route hws, classifyText_eq hrem, ← hc0, ← hrest, ← hf,
    if_neg h03]
  refine ⟨_, rfl, ?_⟩
  have hmem := pyMax_mem f c0 rest
  rw [show (classificationOf content (pyMax f c0 rest)).intent =
    (pyMax f c0 rest).1 from rfl, hc0, hrest]
  simp only [hc0, hrest, List.mem_cons, List.not_mem_nil, or_false] at hmem
  rcases hmem with h | h | h | h | h | h <;> rw [h] <;> simp

/-- C10 witness: a concrete slash-containing prose input. -/
theorem claimC10_slash_never_none_witness :
    (0.7 : ℚ) ≤ (checkFileIntent "ok / thanks").confidence ∧
      ∃ r, classify "ok / thanks" "text" = some r ∧ r.intent ≠ "none" :=
  claimC10_slash_never_none "ok / thanks" (by decide) (by decide)

/-- C3 counterexample: on `"zzzz"` every category scores `0`, so the
top score is shared by all six categories and the earliest of them in
enumeration order is `calendar`; but the global `0.3` floor makes
`classify` return intent `"none"`, not `"calendar"` — refuting the
claim as stated ("for every text input whose top score is shared by
several categories, the returned intent is the earliest of those
categories"). -/
theorem claimC3_counterexample :
    (checkCalendarIntent "zzzz").confidence = 0 ∧
      checkReminderIntent "zzzz" = some zeroCheck ∧
      (checkErrorIntent "zzzz").confidence = 0 ∧
      (checkSearchIntent "zzzz").confidence = 0 ∧
      (checkContactIntent "zzzz").confidence = 0 ∧
      (checkFileIntent "zzzz").confidence = 0 ∧
      classify "zzzz" "text" = some noActionResponse ∧
      noActionResponse.intent ≠ "calendar" := by
  with_unfolding_all decide

/-- C3 (amended): *provided the top score meets the global `0.3`
floor*, `classify` picks the category with the strictly highest score,
and on an exact tie the first-encountered category in the fixed
enumeration order calendar, reminder, error, search, contact, file
wins: the returned intent is the earliest maximal entry of the score
list. -/
theorem claimC3_amended_first_max_wins (content : String) (rrem : CheckResult)
    (hws : pyStripEmpty content = false)
    (hrem : checkReminderIntent content = some rrem)
    (h03 : ∃ p ∈ scoresWith content rrem, (0.3 : ℚ) ≤ p.2.confidence) :
    ∃ r best l1 l2, classify content "text" = some r ∧
      scoresWith content rrem = l1 ++ best :: l2 ∧
      r.intent = best.1 ∧ r.confidence = best.2.confidence ∧
      (∀ q ∈ scoresWith content rrem, q.2.confidence ≤ best.2.confidence) ∧
      (∀ q ∈ l1, q.2.confidence < best.2.confidence) := by
  set f : String × CheckResult → ℚ := fun p => p.2.confidence with hf
  set c0 : String × CheckResult := ("calendar", checkCalendarIntent content) with hc0
  set rest : List (String × CheckResult) :=
    [("reminder", rrem), ("error", checkErrorIntent content),
     ("search", checkSearchIntent content),
     ("contact", checkContactIntent content),
     ("file", checkFileIntent content)] with hrest
  have hscores : scoresWith content rrem = c0 :: rest := by
    rw [scoresWith, hc0, hrest]
  obtain ⟨p, hpmem, hp3⟩ := h03
  have hub := pyMax_ub f c0 rest
  have hpub : p.2.confidence ≤ (pyMax f c0 rest).2.confidence := by
    have := hub p (by rw [← hscores]; exact hpmem)
    simpa [hf] using this
  have h03' : ¬ (pyMax f c0 rest).2.confidence < 0.3 :=
    not_lt.mpr (le_trans hp3 hpub)
  obtain ⟨l1, l2, heq, hlt⟩ := pyMax_first f c0 rest
  refine ⟨classificationOf content (pyMax f c0 rest), pyMax f c0 rest, l1, l2,
    ?_, ?_, rfl, rfl, ?_, ?_⟩
  · rw [classify_text_route hws, classifyText_eq hrem, ← hc0, ← hrest, ← hf,
      if_neg h03']
  · rw [hscores, heq]
  · intro q hq
    have := hub q (by rw [← hscores]; exact hq)
    simpa [hf] using this
  · intro q hq
    have := hlt q hq
    simpa [hf] using this

/-- C3 witness for the amended statement: `"meeting tomorrow"` scores
`0.7` for calendar and clears the floor. -/
theorem claimC3_amended_first_max_wins_witness :
    ∃ r best l1 l2, classify "meeting tomorrow" "text" = some r ∧
      scoresWith "meeting tomorrow" zeroCheck = l1 ++ best :: l2 ∧
      r.intent = best.1 ∧ r.confidence = best.2.confidence ∧
      (∀ q ∈ scoresWith "meeting tomorrow" zeroCheck,
        q.2.confidence ≤ best.2.confidence) ∧
      (∀ q ∈ l1, q.2.confidence < best.2.confidence) :=
  claimC3_amended_first_max_wins "meeting tomorrow" zeroCheck (by decide)
    (by with_unfolding_all decide) (by with_unfolding_all decide)

/-- C4 counterexample: the image bypass returns confidence `0.7`, not
the claimed maximal `1.0`; and empty content short-circuits to the
no-action response even when `content_type` is `"url"`, so the bypass
does not hold for *every* content input. -/
theorem claimC4_counterexample :
    classify "screenshot" "image" = some imageResponse ∧
      imageResponse.confidence = 0.7 ∧ imageResponse.confidence ≠ 1 ∧
      classify "" "url" = some noActionResponse ∧
      noActionResponse.intent ≠ "open_url" := by
  with_unfolding_all decide

/-- C4 (amended): for non-blank content, `content_type` of `url`,
`file` or `image` bypasses scoring and returns the fixed classification
for that type — url → open-in-browser at confidence `1.0`, file →
open-file/show-in-folder at confidence `1.0`, image →
extract-text/search-image at confidence `0.7`. -/
theorem claimC4_amended_type_bypass (content : String)
    (hws : pyStripEmpty content = false) :
    classify content "url" = some (urlResponse content) ∧
      classify content "file" = some (fileResponse content) ∧
      classify content "image" = some imageResponse ∧
      (urlResponse content).confidence = 1 ∧
      (urlResponse content).suggested_actions = ["open_in_browser"] ∧
      (fileResponse content).confidence = 1 ∧
      (fileResponse content).suggested_actions = ["open_file", "show_in_folder"] ∧
      imageResponse.confidence = 0.7 ∧
      imageResponse.suggested_actions = ["extract_text", "search_image"] := by
  refine ⟨?_, ?_, ?_, rfl, rfl, rfl, rfl, rfl, rfl⟩
  · unfold classify
    rw [if_neg (by simp [hws]), if_pos rfl]
  · unfold classify
    rw [if_neg (by simp [hws]), if_neg (by decide), if_pos rfl]
  · unfold classify
    rw [if_neg (by simp [hws]), if_neg (by decide), if_neg (by decide),
      if_pos rfl]

/-- C4 witness for the amended statement. -/
theorem claimC4_amended_type_bypass_witness :
    classify "x" "url" = some (urlResponse "x") ∧
      classify "x" "file" = some (fileResponse "x") ∧
      classify "x" "image" = some imageResponse ∧
      (urlResponse "x").confidence = 1 ∧
      (urlResponse "x").suggested_actions = ["open_in_browser"] ∧
      (fileResponse "x").confidence = 1 ∧
      (fileResponse "x").suggested_actions = ["open_file", "show_in_folder"] ∧
      imageResponse.confidence = 0.7 ∧
      imageResponse.suggested_actions = ["extract_text", "search_image"] :=
  claimC4_amended_type_bypass "x" (by decide)

/-- C6 counterexample: the fallback signature keeps the original
casing — `_create_signature` joins `content.split()[:3]` without
lower-casing, so the claimed lower-cased fallback is wrong. -/
theorem claimC6_counterexample :
    createSignature "Hello World Foo" = "Hello_World_Foo" ∧
      "Hello_World_Foo" ≠ "hello_world_foo" := by
  decide

/-- C6 (amended): for input matching none of the signature rules, the
signature is the underscore-joined first three whitespace tokens *with
their original casing* (not lower-cased), and the empty string maps to
`"empty"`; the rules are tested in the stated priority order with the
first match winning (the hypotheses below are exactly the eight rule
tests in source order). -/
theorem claimC6_amended_fallback (content : String)
    (hne : content.isEmpty = false)
    (h1 : dotPySearch content.data = false)
    (h2 : pythonCmdSearch (pyLower content).data = false)
    (h3 : dotJsonSearch content.data = false)
    (h4 : containsSub (pyLower content).data "pip install".data = false)
    (h5 : errAltSearch (pyLower content).data = false)
    (h6 : winDriveSearch content.data = false)
    (h7 : httpSearch content.data = false) :
    createSignature content =
      String.intercalate "_" ((pyTokens content).take 3) ∧
      createSignature "" = "empty" := by
  refine ⟨?_, by decide⟩
  simp only [createSignature, hne, h1, h2, h3, h4, h5, h6, h7,
    Bool.false_eq_true, if_false]

/-- C6 witness for the amended statement. -/
theorem claimC6_amended_fallback_witness :
    createSignature "The Quick Brown fox" =
      String.intercalate "_" ((pyTokens "The Quick Brown fox").take 3) ∧
      createSignature "" = "empty" :=
  claimC6_amended_fallback "The Quick Brown fox" (by decide) (by decide)
    (by decide) (by decide) (by decide) (by decide) (by decide) (by decide)

lemma trackAction_events_length (s : ConciergeState) (ts c a : String) :
    (trackAction s ts c a).clipboard_events.length =
      min (s.clipboard_events.length + 1) 1000 := by
  unfold trackAction
  dsimp only
  split
  · rename_i h
    rw [List.length_drop]
    simp only [List.length_append, List.length_cons, List.length_nil] at h ⊢
    omega
  · rename_i h
    simp only [List.length_append, List.length_cons, List.length_nil] at h ⊢
    omega

/-- C5: the pattern tables are rebuilt by `track_action` exactly when
the retained event count after the append and cap enforcement — which
is `min (previous + 1) 1000` — is a multiple of 10; and there are
sequences of appends during which no rebuild happens (five appends onto
a one-event history leave the pattern tables untouched and stale). -/
theorem claimC5_rebuild_every_tenth :
    (∀ (s : ConciergeState) (ts c a : String),
      (trackAction s ts c a).clipboard_events.length =
        min (s.clipboard_events.length + 1) 1000 ∧
      (trackAction s ts c a).patterns =
        (if min (s.clipboard_events.length + 1) 1000 % 10 = 0
         then buildPatterns (trackAction s ts c a).clipboard_events
         else s.patterns)) ∧
    ((List.foldl (fun st (ca : String × String) => trackAction st "t" ca.1 ca.2)
        (ConciergeState.mk [⟨"t0", "hello", "hello", "a0", none⟩] []
          ⟨[(("x", "y"), 7)], [], []⟩)
        [("a", "u"), ("b", "u"), ("c", "u"), ("d", "u"), ("e", "u")]).patterns =
      Patterns.mk [(("x", "y"), 7)] [] [] ∧
    buildPatterns (List.foldl
        (fun st (ca : String × String) => trackAction st "t" ca.1 ca.2)
        (ConciergeState.mk [⟨"t0", "hello", "hello", "a0", none⟩] []
          ⟨[(("x", "y"), 7)], [], []⟩)
        [("a", "u"), ("b", "u"), ("c", "u"), ("d", "u"), ("e", "u")]).clipboard_events ≠
      Patterns.mk [(("x", "y"), 7)] [] []) := by
  refine ⟨fun s ts c a => ⟨trackAction_events_length s ts c a, ?_⟩, ?_⟩
  · rw [show (trackAction s ts c a).patterns =
        (if (trackAction s ts c a).clipboard_events.length % 10 = 0
         then buildPatterns ((trackAction s ts c a).clipboard_events)
         else s.patterns) from rfl]
    rw [trackAction_events_length s ts c a]
  · constructor
    · with_unfolding_all decide
    · with_unfolding_all decide

/-- C8: starting from a state where fingerprint `f` is not recorded,
`is_duplicate(f)` returns `false` and records `f` at the current time;
a second check within the dedup window returns `true` (leaving the
table unchanged); a check after the window has elapsed since the
recorded time returns `false` again. -/
theorem claimC8_dedup_gate (m : DedupTable) (f : String) (t0 t1 t2 : ℚ)
    (hnew : m f = none)
    (_h01 : 0 ≤ t1 - t0) (hwin : t1 - t0 < DEDUP_WINDOW)
    (hexp : DEDUP_WINDOW ≤ t2 - t0) :
    (isDuplicate m f t0).1 = false ∧
      (isDuplicate m f t0).2 f = some t0 ∧
      (isDuplicate ((isDuplicate m f t0).2) f t1).1 = true ∧
      (isDuplicate ((isDuplicate m f t0).2) f t1).2 = (isDuplicate m f t0).2 ∧
      (isDuplicate ((isDuplicate m f t0).2) f t2).1 = false := by
  have hm0 : (isDuplicate m f t0).2 f = some t0 := by
    simp [isDuplicate, hnew]
  refine ⟨by simp [isDuplicate, hnew], hm0, ?_, ?_, ?_⟩
  · rw [isDuplicate, hm0]
    dsimp only
    rw [if_pos hwin]
  · rw [isDuplicate, hm0]
    dsimp only
    rw [if_pos hwin]
  · rw [isDuplicate, hm0]
    dsimp only
    rw [if_neg (not_lt.mpr hexp)]

/-- C8 witness: fingerprint `"abc"`, window 5, checks at times 0, 3
and 7. -/
theorem claimC8_dedup_gate_witness :
    (isDuplicate (fun _ => none) "abc" 0).1 = false ∧
      (isDuplicate (fun _ => none) "abc" 0).2 "abc" = some 0 ∧
      (isDuplicate ((isDuplicate (fun _ => none) "abc" 0).2) "abc" 3).1 = true ∧
      (isDuplicate ((isDuplicate (fun _ => none) "abc" 0).2) "abc" 3).2 =
        (isDuplicate (fun _ => none) "abc" 0).2 ∧
      (isDuplicate ((isDuplicate (fun _ => none) "abc" 0).2) "abc" 7).1 = false :=
  claimC8_dedup_gate (fun _ => none) "abc" 0 3 7 rfl
    (by with_unfolding_all decide) (by with_unfolding_all decide)
    (by with_unfolding_all decide)

/-- C1 (code bug): `_build_patterns` reads `event.get("content_preview",
"")`, but `track_action` stores the content under `clipboard_content`
(with the signature precomputed in the `signature` field).  For a
history recorded through `track_action` with contents
`"pip install requests"` then `"Error: boom"`, the stored signatures
are `pip_install` and `error_message` and the direct recount for the
pair is 1, yet mining produces a count of 0 for that pair — every
event collapses to the signature of the missing `content_preview`
(`"empty"`), so the `(empty, empty)` pair gets the count instead. -/
theorem claimC1_mining_reads_wrong_field :
    (trackAction (trackAction ⟨[], [], buildPatterns []⟩ "t1"
        "pip install requests" "a") "t2" "Error: boom"
        "b").clipboard_events.map (fun e => e.signature) =
      ["pip_install", "error_message"] ∧
    specAdjacentPairCount
      (trackAction (trackAction ⟨[], [], buildPatterns []⟩ "t1"
        "pip install requests" "a") "t2" "Error: boom" "b").clipboard_events
      ("pip_install", "error_message") = 1 ∧
    assocCount
      (buildPatterns (trackAction (trackAction ⟨[], [], buildPatterns []⟩ "t1"
        "pip install requests" "a") "t2" "Error: boom"
        "b").clipboard_events).workflows
      ("pip_install", "error_message") = 0 ∧
    assocCount
      (buildPatterns (trackAction (trackAction ⟨[], [], buildPatterns []⟩ "t1"
        "pip install requests" "a") "t2" "Error: boom"
        "b").clipboard_events).workflows
      ("empty", "empty") = 1 := by
  with_unfolding_all decide

set_option maxRecDepth 4000 in
/-- C2 (code bug): `_get_personalized_suggestion` computes the
filtered (count ≥ 2) and descending-sorted `related_actions` — here
`[("error_message", 3)]` for signature `pip_install` — but never adds
it to the returned suggestions: the surfaced list is only the template
hint, and no surfaced string mentions the learned follow-up. -/
theorem claimC2_learned_followups_never_surfaced :
    relatedActionsFor (Patterns.mk [(("pip_install", "error_message"), 3)] [] [])
        "pip_install" = [("error_message", 3)] ∧
      getPersonalizedSuggestion
        (Patterns.mk [(("pip_install", "error_message"), 3)] [] [])
        (ClipEntry.mk none (some "pip install requests") (some "text")) =
        some [pipTestStr] ∧
      containsSub pipTestStr.data "error_message".data = false := by
  with_unfolding_all decide

end Concierge
